import Mathlib

/-!
Verification development for a small HTTP static-file server written in Rust.

The embedding is shallow: each Rust function that the claims mention is
translated into an executable Lean definition over explicit data.

Conventions used throughout:
* Rust byte strings and `Vec<u8>` buffers become `List Nat` (each element is
  one byte value; 13 is CR, 10 is LF).
* Rust `String` values that are inspected character by character
  (request lines, file paths) become `List Char`.
* Nondeterministic or environment-dependent operations (socket reads and
  writes, `accept`, `Path::exists`, `fs::read`, mime lookup, UTF-8 validity)
  are passed in as explicit oracle arguments, so every definition stays
  executable and every run of the event loop is a function of its inputs.
-/

/-- Characters of a Lean string literal, used to model a Rust `String`. -/
def strL (s : String) : List Char := s.toList

/-- Byte values of a list of characters (ASCII in all uses here). -/
def chBytes (l : List Char) : List Nat := l.map Char.toNat

/-- Byte values of a string literal, modelling Rust `str::as_bytes`. -/
def strBytes (s : String) : List Nat := chBytes (strL s)

/-- Decimal digit bytes of a number, fuel-indexed so that it is structural
and reduces inside the kernel.  With fuel above the number this agrees with
the output of the Rust formatter `format!` for an unsigned integer. -/
def digitsFuel : Nat → Nat → List Nat
  | 0, _ => []
  | f + 1, n => if n < 10 then [48 + n] else digitsFuel f (n / 10) ++ [48 + n % 10]

/-- Decimal digit bytes of `n`, exactly the bytes `format!` produces. -/
def natDigits (n : Nat) : List Nat := digitsFuel (n + 1) n

/-- Reads decimal digit bytes back into the number they denote. -/
def decDigits (l : List Nat) : Nat := l.foldl (fun a d => a * 10 + (d - 48)) 0

/-- Boolean test for an ASCII decimal digit byte. -/
def isDigitB (d : Nat) : Bool := decide (48 ≤ d ∧ d ≤ 57)

/-- Splits a byte list at the first occurrence of the pattern `pat`,
returning the bytes before the occurrence and the bytes after it. -/
def splitSub (pat : List Nat) : List Nat → Option (List Nat × List Nat)
  | [] => if pat = [] then some ([], []) else none
  | a :: rest =>
      if (a :: rest).take pat.length = pat then some ([], (a :: rest).drop pat.length)
      else (splitSub pat rest).map (fun pr => (a :: pr.1, pr.2))

/-- The CRLF CRLF separator that ends the header block of a response. -/
def blankPat : List Nat := [13, 10, 13, 10]

/-- Pattern locating the Content-Length header line in a response. -/
def clPat : List Nat := strBytes "\r\nContent-Length: "

/-- Bytes of the serialized response that follow the first blank line. -/
def bodyAfterBlank (out : List Nat) : Option (List Nat) :=
  (splitSub blankPat out).map (fun pr => pr.2)

/-- Numeric value of the Content-Length header of a serialized response. -/
def contentLengthOf (out : List Nat) : Option Nat :=
  (splitSub clPat out).map (fun pr => decDigits (pr.2.takeWhile isDigitB))

/-- Boolean prefix test on character lists: does `s` start with `p`. -/
def startsWithL : List Char → List Char → Bool
  | _, [] => true
  | [], _ :: _ => false
  | a :: s, b :: p => if a = b then startsWithL s p else false

/-- Boolean substring test on character lists, modelling Rust
`str::contains` for a literal pattern. -/
def containsSub : List Char → List Char → Bool
  | [], pat => pat.isEmpty
  | a :: t, pat => startsWithL (a :: t) pat || containsSub t pat

/-- Boolean whitespace test covering the ASCII whitespace that
`char::is_whitespace` recognizes in request lines. -/
def isWsC (c : Char) : Bool := c = ' ' || c = '\t' || c = '\n' || c = '\r'

/-- Accumulator loop behind `splitWs`; `acc` holds the current word
reversed. -/
def splitWsAux : List Char → List Char → List (List Char)
  | [], acc => if acc = [] then [] else [acc.reverse]
  | c :: rest, acc =>
      if isWsC c then
        if acc = [] then splitWsAux rest [] else acc.reverse :: splitWsAux rest []
      else splitWsAux rest (c :: acc)

/-- Splits on runs of whitespace discarding empties, modelling Rust
`str::split_whitespace`. -/
def splitWs (l : List Char) : List (List Char) := splitWsAux l []

/-- Suffix of a path after its last slash; helper for the file-name part
used by the extension test. -/
def afterLastSlash (p : List Char) : List Char :=
  p.foldl (fun acc c => if c = '/' then [] else acc ++ [c]) []

/-- Drops trailing slashes, as Rust path normalization ignores them when
computing the file name. -/
def dropTrailingSlashes (p : List Char) : List Char :=
  (p.reverse.dropWhile (fun c => c = '/')).reverse

/-- Models `Path::extension().is_none()` for the plain file paths this
server builds: the file name (final component) has no dot after its first
character.  Paths whose components are `.` or `..` never reach this test in
`status_filename`. -/
def extensionIsNone (p : List Char) : Bool :=
  let fname := afterLastSlash (dropTrailingSlashes p)
  !((fname.drop 1).any (fun c => c = '.'))

/-- Error page kinds, from `enum ErrorPage` in src/http/response.rs. -/
inductive ErrorPage
  | NotFound
  | PermissionDenied
  | InternalServerError
deriving DecidableEq

/-- File path of each error page, from `ErrorPage::path`. -/
def ErrorPage.path : ErrorPage → List Char
  | ErrorPage.NotFound => strL "public/404.html"
  | ErrorPage.PermissionDenied => strL "public/403.html"
  | ErrorPage.InternalServerError => strL "public/500.html"

/-- Status line of each error page, from `ErrorPage::status`. -/
def ErrorPage.statusLine : ErrorPage → List Char
  | ErrorPage.NotFound => strL "HTTP/1.1 404 NOT FOUND"
  | ErrorPage.PermissionDenied => strL "HTTP/1.1 403 PERMISSION DENIED"
  | ErrorPage.InternalServerError => strL "HTTP/1.1 500 INTERNAL SERVER ERROR"

/-- Response body, from `enum Body` in src/http/response.rs.  A `Text`
body is represented by its UTF-8 bytes, so that in both variants the list
length is exactly the byte length Rust computes with `len()`. -/
inductive Body
  | Text (bytes : List Nat)
  | Binary (bytes : List Nat)
deriving DecidableEq

/-- Bytes of a body in either variant; `Body::Text(t)` contributes
`t.as_bytes()` and `Body::Binary(b)` contributes `b`. -/
def bodyBytesOf : Body → List Nat
  | Body.Text t => t
  | Body.Binary b => b

/-- The `HttpResponse` record from src/http/response.rs. -/
structure HttpResponse where
  status : List Char
  content_type : List Char
  body : Body
deriving DecidableEq

/-- Serializer from src/http/response.rs `build_response`: the bytes of
`format!("{status}\r\nContent-Length: {length}\r\nContent-Type: {mime}\r\n\r\n")`
followed by the body bytes, where `length` is the body byte length. -/
def build_response (r : HttpResponse) : List Nat :=
  chBytes r.status ++ strBytes "\r\nContent-Length: " ++
    natDigits (bodyBytesOf r.body).length ++ strBytes "\r\nContent-Type: " ++
    chBytes r.content_type ++ strBytes "\r\n\r\n" ++ bodyBytesOf r.body

/-- Resolver from src/http/response.rs `status_filename`.  The oracle `ex`
models `Path::new(path).exists()`.  Mirrors the source branch for branch:
fewer than two whitespace tokens give the bare 404 pair, a path containing
`..` gives the 403 pair, the bare `/` gives the welcome page, and otherwise
the path is prefixed with `public`, given an `.html` extension when it has
none, and checked for existence. -/
def status_filename (ex : List Char → Bool) (response : List Char) :
    List Char × List Char :=
  match (splitWs response)[1]? with
  | none => (strL "HTTP/1.1 404", strL "public/404.html")
  | some path =>
      if containsSub path (strL "..") then
        (ErrorPage.statusLine ErrorPage.PermissionDenied,
         ErrorPage.path ErrorPage.PermissionDenied)
      else if path = strL "/" then
        (strL "HTTP/1.1 200 OK", strL "public/welcome.html")
      else
        let path1 := strL "public" ++ path
        let path2 := if extensionIsNone path1 then path1 ++ strL ".html" else path1
        if ex path2 = false then
          (ErrorPage.statusLine ErrorPage.NotFound, ErrorPage.path ErrorPage.NotFound)
        else (strL "HTTP/1.1 200 OK", path2)

/-- Mime information the `mime_guess` collaborator returns for a path:
whether the top-level type is `text`, and the full mime name. -/
structure MimeInfo where
  isText : Bool
  name : List Char

/-- Body construction inside `create_http_response`: a text mime tries
UTF-8 first and falls back to binary, any other mime is binary. -/
def mkRespBody (m : MimeInfo) (utf8ok : List Nat → Bool) (bytes : List Nat) : Body :=
  if m.isText then (if utf8ok bytes then Body.Text bytes else Body.Binary bytes)
  else Body.Binary bytes

/-- Handler from src/http/response.rs `create_http_response`.  Oracles:
`fs` models `io::file::read_file_bytes` (`none` is a read error), `mimeOf`
models `from_path(..).first_or_octet_stream()`, `utf8ok` models
`String::from_utf8` succeeding, `ex` feeds `status_filename`.  On a read
error the source logs to stderr (an IO effect outside this embedding) and
falls back to the 500 page; reading the 500 page goes through `.unwrap()`,
so a second failure panics, which this model returns as `none`. -/
def create_http_response (fs : List Char → Option (List Nat))
    (mimeOf : List Char → MimeInfo) (utf8ok : List Nat → Bool)
    (ex : List Char → Bool) (response : List Char) : Option HttpResponse :=
  let sf := status_filename ex response
  let m := mimeOf sf.2
  match fs sf.2 with
  | some bytes =>
      some { status := sf.1, content_type := m.name,
             body := mkRespBody m utf8ok bytes }
  | none =>
      let status2 := ErrorPage.statusLine ErrorPage.InternalServerError
      let filename2 := ErrorPage.path ErrorPage.InternalServerError
      let m2 := mimeOf filename2
      match fs filename2 with
      | some b =>
          some { status := status2, content_type := m2.name,
                 body := mkRespBody m2 utf8ok b }
      | none => none

/-- Entry point from src/http/response.rs `http_handler`: resolve, then
serialize.  `none` propagates the panic case of `create_http_response`. -/
def http_handler (fs : List Char → Option (List Nat))
    (mimeOf : List Char → MimeInfo) (utf8ok : List Nat → Bool)
    (ex : List Char → Bool) (response : List Char) : Option (List Nat) :=
  (create_http_response fs mimeOf utf8ok ex response).map build_response

/-- State of the worker pool from src/thread_pool.rs.  `workers` is the
number of spawned worker threads, `pending` the contents of the
`mpsc::channel` job queue in submission order, and `ranByCaller` the jobs
that `execute` ran synchronously on the calling thread (the source has no
such path, so every operation leaves it empty).  Jobs are identified by
numbers since the closures themselves are opaque. -/
structure PoolState where
  workers : Nat
  pending : List Nat
  ranByCaller : List Nat
deriving DecidableEq

/-- Constructor from `ThreadPool::new`: asserts the size is positive
(modelled as `none` for the panic), spawns `size` workers, and creates an
empty unbounded channel. -/
def ThreadPoolNew (size : Nat) : Option PoolState :=
  if size = 0 then none else some { workers := size, pending := [], ranByCaller := [] }

/-- The pool the reactor constructs with `ThreadPool::new(4)`. -/
def pool4 : PoolState := { workers := 4, pending := [], ranByCaller := [] }

/-- Submission from `ThreadPool::execute`: boxes the job and sends it on
the channel.  `mpsc::Sender::send` appends to an unbounded queue and
returns immediately; nothing is ever run on the calling thread. -/
def execute (p : PoolState) (j : Nat) : PoolState :=
  { p with pending := p.pending ++ [j] }

/-- Insertion into a slab arena, modelling `slab::Slab::vacant_entry`
followed by `insert`: the value lands in a vacant slot (the first one
here; the slab crate reuses freed slots as well) and the slot key is
returned. -/
def slabInsert {α : Type} : List (Option α) → α → (List (Option α) × Nat)
  | [], a => ([some a], 0)
  | none :: rest, a => (some a :: rest, 0)
  | some b :: rest, a => (some b :: (slabInsert rest a).1, (slabInsert rest a).2 + 1)

/-- Removal from a slab arena, modelling `slab::Slab::remove`: the slot is
vacated and its key becomes reusable by later insertions. -/
def slabRemove {α : Type} (t : List (Option α)) (k : Nat) : List (Option α) :=
  t.set k none

/-- Slot access, modelling `slab::Slab::get_mut(idx)`. -/
def slabGet {α : Type} (t : List (Option α)) (k : Nat) : Option α :=
  match t[k]? with
  | some (some a) => some a
  | _ => none

/-- Token for a slot key, from `Reactor::accept_ready`:
`Token(key + 1)`, since token 0 is reserved for the listener.  The token
is the bare index — it has no generation component. -/
def tokenOfKey (k : Nat) : Nat := k + 1

/-- Connection lookup through a token, from
`Reactor::handle_connection_event`: `self.conns.get_mut(token.0 - 1)`. -/
def lookupTok {α : Type} (t : List (Option α)) (tok : Nat) : Option α :=
  slabGet t (tok - 1)

/-- Connection states from `enum State` in src/io/nonblocking.rs. -/
inductive ConnState
  | ReadingHeader
  | ReadingBody
  | WritingHeader
  | WritingBody
  | ReadyToRespond
  | Closed
deriving DecidableEq

/-- The `Connection` record from src/io/nonblocking.rs.  The socket
handle itself is not part of the state; its behaviour enters through the
read and write result scripts below. -/
structure Connection where
  read_buffer : List Nat
  write_buffer : List Nat
  state : ConnState
  keep_alive : Bool
deriving DecidableEq

/-- Result of one nonblocking `read` call on a connection socket:
`ok []` is a zero-length read (peer closed), `ok bs` delivers bytes,
`wouldBlock` is `ErrorKind::WouldBlock`, and `errOther` is any other
error. -/
inductive RIOResult
  | ok (bytes : List Nat)
  | wouldBlock
  | errOther
deriving DecidableEq

/-- Result of one nonblocking `write` call on a connection socket:
`ok n` wrote `n` bytes (`ok 0` is a zero-length write), `wouldBlock` is
`ErrorKind::WouldBlock`, and `errOther` is any other error. -/
inductive WIOResult
  | ok (n : Nat)
  | wouldBlock
  | errOther
deriving DecidableEq

/-- Result of one nonblocking `accept` call on the listener. -/
inductive AcceptResult
  | ok
  | wouldBlock
  | errOther
deriving DecidableEq

/-- The hard-coded body the TEMP TEST block of `handle_readable` sends. -/
def tempBody : List Nat := strBytes "Hello from mio\r\n"

/-- The bytes the TEMP TEST block of `handle_readable` queues: the
`format!` header with the body byte length, then the body. -/
def tempResponseBytes : List Nat :=
  strBytes "HTTP/1.1 200 OK" ++ strBytes "\r\nContent-Length: " ++
    natDigits tempBody.length ++ strBytes "\r\nContent-Type: " ++
    strBytes "text/plain" ++ strBytes "\r\n\r\n" ++ tempBody

/-- Code that runs after the read loop of `handle_readable` exits: the
TEMP TEST block loads the hard-coded response whenever the read buffer is
nonempty and the write buffer is empty.  No request line is parsed and no
job is submitted to the pool. -/
def finishRead (c : Connection) : Connection :=
  if c.read_buffer ≠ [] ∧ c.write_buffer = [] then
    { c with write_buffer := tempResponseBytes }
  else c

/-- The read loop of `handle_readable` in src/io/nonblocking.rs, driven by
the script of read results.  A zero-length read or an error (logged in the
source) closes the connection; bytes extend the read buffer; would-block
leaves the loop.  An exhausted script stands for the socket having no
further data, which in the source surfaces as would-block. -/
def handle_readable : Connection → List RIOResult → Connection
  | c, [] => finishRead c
  | c, RIOResult.ok [] :: _ => finishRead { c with state := ConnState.Closed }
  | c, RIOResult.ok bs :: rest =>
      handle_readable { c with read_buffer := c.read_buffer ++ bs } rest
  | c, RIOResult.wouldBlock :: _ => finishRead c
  | c, RIOResult.errOther :: _ => finishRead { c with state := ConnState.Closed }

/-- The write loop of `handle_writable` in src/io/nonblocking.rs, driven
by the script of write results.  While the write buffer is nonempty: a
zero-length write closes, a write of `n` bytes drains the first `n` bytes
and continues, would-block leaves the loop, any other error (logged in the
source) closes.  An exhausted script stands for would-block. -/
def handle_writable : Connection → List WIOResult → Connection
  | c, s =>
      if c.write_buffer = [] then c
      else
        match s with
        | [] => c
        | WIOResult.wouldBlock :: _ => c
        | WIOResult.errOther :: _ => { c with state := ConnState.Closed }
        | WIOResult.ok 0 :: _ => { c with state := ConnState.Closed }
        | WIOResult.ok (n + 1) :: rest =>
            handle_writable { c with write_buffer := c.write_buffer.drop (n + 1) } rest

/-- Readiness interest registered with the mio poller.  mio interests can
combine readable and writable, so both flags are carried to let the
single-interest invariant be stated. -/
structure Interest where
  readable : Bool
  writable : Bool
deriving DecidableEq

/-- The value `Interest::READABLE`. -/
def interestR : Interest := { readable := true, writable := false }

/-- The value `Interest::WRITABLE`. -/
def interestW : Interest := { readable := false, writable := true }

/-- State of the `Reactor` from src/io/nonblocking.rs: the slab of
connections, the poller registration of each slot token (index `k` holds
the interest registered for `Token(k+1)`; the listener registration on
token 0 is separate and always readable), and the log of jobs handed to
the worker pool.  The source never calls `pool.execute`, so no step below
touches `submitted`. -/
structure Reactor where
  conns : List (Option Connection)
  registry : List (Option Interest)
  submitted : List Nat
deriving DecidableEq

/-- The reactor right after `Reactor::new`: empty slab, nothing
registered besides the listener, no jobs submitted. -/
def initReactor : Reactor := { conns := [], registry := [], submitted := [] }

/-- The fresh connection built in `accept_ready`. -/
def freshConn : Connection :=
  { read_buffer := [], write_buffer := [], state := ConnState.ReadingHeader,
    keep_alive := false }

/-- Stores a value at a slot of the registry, growing it by one when the
slot is the next free index (the only way it is used, since connections
are never removed). -/
def setSlot {β : Type} (l : List (Option β)) (k : Nat) (v : β) : List (Option β) :=
  if k < l.length then l.set k (some v) else l ++ [some v]

/-- One accepted connection in `accept_ready`: insert into the slab and
register the slot token with `Interest::READABLE`. -/
def insertConn (r : Reactor) : Reactor :=
  let pr := slabInsert r.conns freshConn
  { r with conns := pr.1, registry := setSlot r.registry pr.2 interestR }

/-- The accept loop of `Reactor::accept_ready`, draining the listener
until would-block; any other accept error is logged and also leaves the
loop. -/
def accept_ready : Reactor → List AcceptResult → Reactor
  | r, [] => r
  | r, AcceptResult.ok :: rest => accept_ready (insertConn r) rest
  | r, AcceptResult.wouldBlock :: _ => r
  | r, AcceptResult.errOther :: _ => r

/-- First half of `Reactor::handle_connection_event` (the
`event.is_readable()` block): run `handle_readable` on the connection at
the slot, and reregister its token with `Interest::WRITABLE` when the
write buffer is nonempty afterwards. -/
def hceRead (r : Reactor) (idx : Nat) (isR : Bool) (rs : List RIOResult) : Reactor :=
  if isR then
    match slabGet r.conns idx with
    | some c =>
        { r with conns := r.conns.set idx (some (handle_readable c rs)),
                 registry :=
                   if (handle_readable c rs).write_buffer ≠ [] then
                     r.registry.set idx (some interestW)
                   else r.registry }
    | none => r
  else r

/-- Second half of `Reactor::handle_connection_event` (the
`event.is_writable()` block): run `handle_writable` on the connection at
the slot, and when the write buffer has drained set the state to Closed.
The deregister and slab-remove steps are TODO comments in the source, so
the connection stays in the slab and its token stays in the registry. -/
def hceWrite (r : Reactor) (idx : Nat) (isW : Bool) (ws : List WIOResult) : Reactor :=
  if isW then
    match slabGet r.conns idx with
    | some c =>
        { r with
          conns := r.conns.set idx
                     (some (if (handle_writable c ws).write_buffer = [] then
                              { handle_writable c ws with state := ConnState.Closed }
                            else handle_writable c ws)) }
    | none => r
  else r

/-- Dispatch of `Reactor::handle_connection_event`: `idx` is
`token.0 - 1`, then the readable block runs before the writable block. -/
def handle_connection_event (r : Reactor) (token : Nat) (isR isW : Bool)
    (rs : List RIOResult) (ws : List WIOResult) : Reactor :=
  hceWrite (hceRead r (token - 1) isR rs) (token - 1) isW ws

/-- One poll event together with the socket behaviour scripts it is
handled with: the token mio reported, its readiness flags, and the results
of the accept, read and write calls the handlers will make. -/
structure EventIn where
  token : Nat
  isR : Bool
  isW : Bool
  accepts : List AcceptResult
  reads : List RIOResult
  writes : List WIOResult

/-- Dispatch of one event in `event_loop`: the listener token accepts,
every other token goes to `handle_connection_event`. -/
def step (r : Reactor) (e : EventIn) : Reactor :=
  if e.token = 0 then accept_ready r e.accepts
  else handle_connection_event r e.token e.isR e.isW e.reads e.writes

/-- Runs the event loop over a finite sequence of events. -/
def runR (r : Reactor) (es : List EventIn) : Reactor := es.foldl step r

theorem take_append_self {β : Type} (l t : List β) : (l ++ t).take l.length = l := by
  induction l with
  | nil => rfl
  | cons a l ih => simp [ih]

theorem drop_append_self {β : Type} (l t : List β) : (l ++ t).drop l.length = t := by
  induction l with
  | nil => rfl
  | cons a l ih => simp [ih]

theorem splitSub_cons (pat : List Nat) (a : Nat) (rest : List Nat) :
    splitSub pat (a :: rest) =
      if (a :: rest).take pat.length = pat then some ([], (a :: rest).drop pat.length)
      else (splitSub pat rest).map (fun pr => (a :: pr.1, pr.2)) := rfl

theorem splitSub_self (pat t : List Nat) : splitSub pat (pat ++ t) = some ([], t) := by
  cases pat with
  | nil =>
      cases t with
      | nil => rfl
      | cons a rest => rw [List.nil_append, splitSub_cons]; simp
  | cons q qt =>
      rw [List.cons_append, splitSub_cons]
      simp [take_append_self, drop_append_self]

theorem splitSub_skip (p0 : Nat) (pt : List Nat) :
    ∀ (x t : List Nat), (∀ b ∈ x, b ≠ p0) →
      splitSub (p0 :: pt) (x ++ t) =
        (splitSub (p0 :: pt) t).map (fun pr => (x ++ pr.1, pr.2)) := by
  intro x
  induction x with
  | nil =>
      intro t _
      cases h : splitSub (p0 :: pt) t <;> simp [h]
  | cons a x ih =>
      intro t hx
      have ha : a ≠ p0 := hx a (List.mem_cons_self a x)
      have hcond : ¬ ((a :: (x ++ t)).take (p0 :: pt).length = p0 :: pt) := by
        simp only [List.length_cons, List.take_succ_cons, List.cons.injEq, not_and]
        intro h1; exact absurd h1 ha
      rw [List.cons_append, splitSub_cons, if_neg hcond,
        ih t (fun b hb => hx b (List.mem_cons_of_mem a hb))]
      cases splitSub (p0 :: pt) t <;> simp

theorem splitSub_blank_skip (x t : List Nat) (hx : ∀ b ∈ x, b ≠ 13) :
    splitSub blankPat (x ++ t) = (splitSub blankPat t).map (fun pr => (x ++ pr.1, pr.2)) :=
  splitSub_skip 13 [10, 13, 10] x t hx

theorem splitSub_cl_skip (x t : List Nat) (hx : ∀ b ∈ x, b ≠ 13) :
    splitSub clPat (x ++ t) = (splitSub clPat t).map (fun pr => (x ++ pr.1, pr.2)) :=
  splitSub_skip 13 (strBytes "\nContent-Length: ") x t hx

theorem splitSub_blank_sep (a : Nat) (t : List Nat) (ha : a ≠ 13) :
    splitSub blankPat (13 :: 10 :: a :: t) =
      (splitSub blankPat (a :: t)).map (fun pr => (13 :: 10 :: pr.1, pr.2)) := by
  have h1 : ¬ ((13 :: 10 :: a :: t).take blankPat.length = blankPat) := by
    simp only [blankPat, List.length_cons, List.length_nil, List.take_succ_cons,
      List.cons.injEq]
    intro h; exact absurd h.2.2.1 ha
  have h2 : ¬ ((10 :: a :: t).take blankPat.length = blankPat) := by
    simp [blankPat, List.take_succ_cons]
  rw [splitSub_cons, if_neg h1, splitSub_cons, if_neg h2]
  cases h : splitSub blankPat (a :: t) <;> simp [h]

theorem digitsFuel_mem : ∀ (f n d : Nat), d ∈ digitsFuel f n → 48 ≤ d ∧ d ≤ 57 := by
  intro f
  induction f with
  | zero => intro n d h; simp [digitsFuel] at h
  | succ f ih =>
      intro n d h
      by_cases hn : n < 10
      · simp [digitsFuel, hn] at h; omega
      · simp [digitsFuel, hn] at h
        rcases h with h | h
        · exact ih _ _ h
        · have : n % 10 < 10 := Nat.mod_lt _ (by omega)
          omega

theorem decDigits_append_last (l : List Nat) (d : Nat) :
    decDigits (l ++ [d]) = (decDigits l) * 10 + (d - 48) := by
  simp [decDigits, List.foldl_append]

theorem decDigits_digitsFuel : ∀ (f n : Nat), n < f → decDigits (digitsFuel f n) = n := by
  intro f
  induction f with
  | zero => intro n h; omega
  | succ f ih =>
      intro n h
      by_cases hn : n < 10
      · simp [digitsFuel, hn, decDigits]
      · have hdiv : n / 10 < n := Nat.div_lt_self (by omega) (by omega)
        have hrec : decDigits (digitsFuel f (n / 10)) = n / 10 := ih _ (by omega)
        simp [digitsFuel, hn, decDigits_append_last, hrec]
        omega

theorem decDigits_natDigits (n : Nat) : decDigits (natDigits n) = n :=
  decDigits_digitsFuel (n + 1) n (by omega)

theorem natDigits_mem (n d : Nat) (h : d ∈ natDigits n) : 48 ≤ d ∧ d ≤ 57 :=
  digitsFuel_mem _ _ _ h

theorem natDigits_noCR (n : Nat) : ∀ b ∈ natDigits n, b ≠ 13 := by
  intro b hb
  have := natDigits_mem n b hb
  omega

theorem takeWhile_append_digits {p : Nat → Bool} :
    ∀ (a b : List Nat), (∀ x ∈ a, p x = true) →
      (a ++ b).takeWhile p = a ++ b.takeWhile p := by
  intro a b
  induction a with
  | nil => intro _; rfl
  | cons x a ih =>
      intro h
      have hx : p x = true := h x (List.mem_cons_self x a)
      simp only [List.cons_append, List.takeWhile_cons, hx, if_true]
      rw [ih (fun y hy => h y (List.mem_cons_of_mem x hy))]

theorem takeWhile_cr (b : List Nat) : (13 :: b).takeWhile isDigitB = [] := by
  simp [List.takeWhile_cons, isDigitB]

theorem splitBlank_header (S D M bd : List Nat)
    (hS : ∀ b ∈ S, b ≠ 13) (hD : ∀ b ∈ D, b ≠ 13) (hM : ∀ b ∈ M, b ≠ 13) :
    splitSub blankPat
        (S ++ strBytes "\r\nContent-Length: " ++ D ++ strBytes "\r\nContent-Type: " ++
          M ++ strBytes "\r\n\r\n" ++ bd)
      = some (S ++ strBytes "\r\nContent-Length: " ++ D ++
          strBytes "\r\nContent-Type: " ++ M, bd) := by
  have hcl : ∀ b ∈ strBytes "ontent-Length: ", b ≠ 13 := by decide
  have hct : ∀ b ∈ strBytes "ontent-Type: ", b ≠ 13 := by decide
  have hA : ∀ b ∈ 67 :: (strBytes "ontent-Length: " ++ D), b ≠ 13 := by
    intro b hb
    rcases List.mem_cons.mp hb with h | h
    · omega
    · rcases List.mem_append.mp h with h | h
      · exact hcl b h
      · exact hD b h
  have hB : ∀ b ∈ 67 :: (strBytes "ontent-Type: " ++ M), b ≠ 13 := by
    intro b hb
    rcases List.mem_cons.mp hb with h | h
    · omega
    · rcases List.mem_append.mp h with h | h
      · exact hct b h
      · exact hM b h
  have h6 : splitSub blankPat (13 :: 10 :: 13 :: 10 :: bd) = some ([], bd) :=
    splitSub_self blankPat bd
  have h5 : splitSub blankPat
      ((67 :: (strBytes "ontent-Type: " ++ M)) ++ (13 :: 10 :: 13 :: 10 :: bd))
      = some (67 :: (strBytes "ontent-Type: " ++ M), bd) := by
    rw [splitSub_blank_skip _ _ hB, h6]; simp
  have h4 : splitSub blankPat
      (13 :: 10 :: 67 :: ((strBytes "ontent-Type: " ++ M) ++ (13 :: 10 :: 13 :: 10 :: bd)))
      = some (13 :: 10 :: 67 :: (strBytes "ontent-Type: " ++ M), bd) := by
    rw [splitSub_blank_sep 67 _ (by omega)]
    rw [show (67 : Nat) :: ((strBytes "ontent-Type: " ++ M) ++ (13 :: 10 :: 13 :: 10 :: bd))
        = (67 :: (strBytes "ontent-Type: " ++ M)) ++ (13 :: 10 :: 13 :: 10 :: bd) from by simp,
      h5]
    rfl
  have h3 : splitSub blankPat
      ((67 :: (strBytes "ontent-Length: " ++ D)) ++
        (13 :: 10 :: 67 :: ((strBytes "ontent-Type: " ++ M) ++ (13 :: 10 :: 13 :: 10 :: bd))))
      = some ((67 :: (strBytes "ontent-Length: " ++ D)) ++
          (13 :: 10 :: 67 :: (strBytes "ontent-Type: " ++ M)), bd) := by
    rw [splitSub_blank_skip _ _ hA, h4]; simp
  have h2 : splitSub blankPat
      (13 :: 10 :: 67 :: ((strBytes "ontent-Length: " ++ D) ++
        (13 :: 10 :: 67 :: ((strBytes "ontent-Type: " ++ M) ++ (13 :: 10 :: 13 :: 10 :: bd)))))
      = some (13 :: 10 :: 67 :: ((strBytes "ontent-Length: " ++ D) ++
          (13 :: 10 :: 67 :: (strBytes "ontent-Type: " ++ M))), bd) := by
    rw [splitSub_blank_sep 67 _ (by omega)]
    rw [show (67 : Nat) :: ((strBytes "ontent-Length: " ++ D) ++
          (13 :: 10 :: 67 :: ((strBytes "ontent-Type: " ++ M) ++ (13 :: 10 :: 13 :: 10 :: bd))))
        = (67 :: (strBytes "ontent-Length: " ++ D)) ++
          (13 :: 10 :: 67 :: ((strBytes "ontent-Type: " ++ M) ++ (13 :: 10 :: 13 :: 10 :: bd)))
        from by simp, h3]
    rfl
  have eshape : S ++ strBytes "\r\nContent-Length: " ++ D ++ strBytes "\r\nContent-Type: " ++
        M ++ strBytes "\r\n\r\n" ++ bd
      = S ++ (13 :: 10 :: 67 :: ((strBytes "ontent-Length: " ++ D) ++
          (13 :: 10 :: 67 :: ((strBytes "ontent-Type: " ++ M) ++ (13 :: 10 :: 13 :: 10 :: bd))))) := by
    rw [show strBytes "\r\nContent-Length: " = 13 :: 10 :: 67 :: strBytes "ontent-Length: " from rfl,
      show strBytes "\r\nContent-Type: " = 13 :: 10 :: 67 :: strBytes "ontent-Type: " from rfl,
      show strBytes "\r\n\r\n" = [13, 10, 13, 10] from rfl]
    simp [List.append_assoc]
  rw [eshape, splitSub_blank_skip _ _ hS, h2]
  rw [show strBytes "\r\nContent-Length: " = 13 :: 10 :: 67 :: strBytes "ontent-Length: " from rfl,
    show strBytes "\r\nContent-Type: " = 13 :: 10 :: 67 :: strBytes "ontent-Type: " from rfl]
  simp [List.append_assoc]

theorem splitCl_header (S D rest : List Nat) (hS : ∀ b ∈ S, b ≠ 13) :
    splitSub clPat (S ++ strBytes "\r\nContent-Length: " ++ D ++ rest)
      = some (S, D ++ rest) := by
  have e1 : S ++ strBytes "\r\nContent-Length: " ++ D ++ rest
      = S ++ (clPat ++ (D ++ rest)) := by
    simp [clPat, List.append_assoc]
  rw [e1, splitSub_cl_skip _ _ hS, splitSub_self]
  simp

theorem startsWithL_app (p rest : List Char) : startsWithL (p ++ rest) p = true := by
  induction p with
  | nil => cases rest <;> rfl
  | cons a p ih => simp [startsWithL, ih]

/-- C4: for every response the serializer builds (any status line and mime
string free of CR bytes, which all of the ones this server produces are),
the numeric value of the Content-Length header equals the exact byte
length of the body bytes that follow the first blank line of the
serialized response; the hard-coded response queued by the reactor's read
path satisfies the same equation. -/
theorem c4_content_length (r : HttpResponse)
    (hs : ∀ b ∈ chBytes r.status, b ≠ 13)
    (hm : ∀ b ∈ chBytes r.content_type, b ≠ 13) :
    bodyAfterBlank (build_response r) = some (bodyBytesOf r.body)
    ∧ contentLengthOf (build_response r) = some (bodyBytesOf r.body).length
    ∧ bodyAfterBlank tempResponseBytes = some tempBody
    ∧ contentLengthOf tempResponseBytes = some tempBody.length := by
  have hD := natDigits_noCR (bodyBytesOf r.body).length
  refine ⟨?_, ?_, by decide, by decide⟩
  · unfold bodyAfterBlank build_response
    rw [splitBlank_header _ _ _ _ hs hD hm]
    rfl
  · unfold contentLengthOf build_response
    have e : chBytes r.status ++ strBytes "\r\nContent-Length: " ++
        natDigits (bodyBytesOf r.body).length ++ strBytes "\r\nContent-Type: " ++
        chBytes r.content_type ++ strBytes "\r\n\r\n" ++ bodyBytesOf r.body
      = chBytes r.status ++ strBytes "\r\nContent-Length: " ++
        natDigits (bodyBytesOf r.body).length ++ (strBytes "\r\nContent-Type: " ++
        (chBytes r.content_type ++ (strBytes "\r\n\r\n" ++ bodyBytesOf r.body))) := by
      simp [List.append_assoc]
    rw [e, splitCl_header _ _ _ hs]
    have hdig : ∀ x ∈ natDigits (bodyBytesOf r.body).length, isDigitB x = true := by
      intro x hx
      have := natDigits_mem _ _ hx
      exact decide_eq_true this
    rw [show strBytes "\r\nContent-Type: " ++
          (chBytes r.content_type ++ (strBytes "\r\n\r\n" ++ bodyBytesOf r.body))
        = 13 :: (strBytes "\nContent-Type: " ++
          (chBytes r.content_type ++ (strBytes "\r\n\r\n" ++ bodyBytesOf r.body))) from rfl]
    rw [Option.map_some']
    rw [takeWhile_append_digits _ _ hdig, takeWhile_cr, List.append_nil,
      decDigits_natDigits]

/-- Sample response used to instantiate the Content-Length theorem. -/
def rEx : HttpResponse :=
  { status := strL "HTTP/1.1 200 OK", content_type := strL "text/html",
    body := Body.Binary [72, 105] }

/-- Witness for c4_content_length at the sample response. -/
theorem c4_content_length_w :
    bodyAfterBlank (build_response rEx) = some (bodyBytesOf rEx.body)
    ∧ contentLengthOf (build_response rEx) = some (bodyBytesOf rEx.body).length
    ∧ bodyAfterBlank tempResponseBytes = some tempBody
    ∧ contentLengthOf tempResponseBytes = some tempBody.length :=
  c4_content_length rEx (by decide) (by decide)

/-- C10: for every existence oracle and every request line — including
malformed lines with fewer than two whitespace tokens, the bare path "/",
traversal attempts, and paths of missing files — the file path
`status_filename` returns begins with "public", and the path of every
error page begins with "public" as well. -/
theorem c10_paths_under_public :
    (∀ (ex : List Char → Bool) (line : List Char),
        startsWithL (status_filename ex line).2 (strL "public") = true)
    ∧ (∀ e : ErrorPage, startsWithL (ErrorPage.path e) (strL "public") = true) := by
  constructor
  · intro ex line
    unfold status_filename
    cases h : (splitWs line)[1]? with
    | none => rfl
    | some path =>
        by_cases h1 : containsSub path (strL "..") = true
        · simp only [h1, if_true]; rfl
        · simp only [h1, if_false, Bool.false_eq_true]
          by_cases h2 : path = strL "/"
          · simp only [h2, if_true]; rfl
          · simp only [h2, if_false]
            by_cases h3 : ex (if extensionIsNone (strL "public" ++ path)
                then (strL "public" ++ path) ++ strL ".html"
                else strL "public" ++ path) = false
            · simp only [h3, if_true]; rfl
            · simp only [h3, if_false]
              by_cases h4 : extensionIsNone (strL "public" ++ path) = true
              · simp only [h4, if_true, List.append_assoc]
                exact startsWithL_app _ _
              · simp only [h4, if_false, Bool.false_eq_true]
                exact startsWithL_app _ _
  · intro e; cases e <;> decide

/-- C6: for every request line whose path token (the second whitespace
token) contains the substring "..", and for every existence oracle,
`status_filename` resolves to the 403 status line and the 403 error page,
which lies under the public directory — no other file path is ever
produced for such a request. -/
theorem c6_dotdot_rejected (ex : List Char → Bool) (line path : List Char)
    (hp : (splitWs line)[1]? = some path)
    (hdd : containsSub path (strL "..") = true) :
    status_filename ex line =
      (strL "HTTP/1.1 403 PERMISSION DENIED", strL "public/403.html") := by
  unfold status_filename
  rw [hp]
  simp [hdd, ErrorPage.statusLine, ErrorPage.path]

/-- Existence oracle that reports every path as present. -/
def exTrue : List Char → Bool := fun _ => true

/-- Witness for c6_dotdot_rejected at a concrete traversal request. -/
theorem c6_dotdot_rejected_w :
    (splitWs (strL "GET /../secret HTTP/1.1"))[1]? = some (strL "/../secret")
    ∧ containsSub (strL "/../secret") (strL "..") = true
    ∧ status_filename exTrue (strL "GET /../secret HTTP/1.1")
        = (strL "HTTP/1.1 403 PERMISSION DENIED", strL "public/403.html") :=
  ⟨by decide, by decide,
    c6_dotdot_rejected exTrue (strL "GET /../secret HTTP/1.1") (strL "/../secret")
      (by decide) (by decide)⟩

/-- C7: behaviour of the write-flush loop on a nonempty write buffer, for
every script continuation: a would-block result stops flushing with the
connection unchanged; a zero-length write or any other write error moves
the connection to Closed with the buffer untouched; a successful write of
n bytes removes exactly the first n bytes of the buffer and continues
flushing. -/
theorem c7_writable_cases (c : Connection) (rest : List WIOResult) (n : Nat)
    (hne : c.write_buffer ≠ []) (hn : n ≤ c.write_buffer.length) (hpos : 0 < n) :
    handle_writable c (WIOResult.wouldBlock :: rest) = c
    ∧ handle_writable c (WIOResult.ok 0 :: rest) = { c with state := ConnState.Closed }
    ∧ handle_writable c (WIOResult.errOther :: rest) = { c with state := ConnState.Closed }
    ∧ (handle_writable c (WIOResult.ok n :: rest)
        = handle_writable { c with write_buffer := c.write_buffer.drop n } rest
      ∧ c.write_buffer.take n ++ c.write_buffer.drop n = c.write_buffer
      ∧ (c.write_buffer.drop n).length = c.write_buffer.length - n) := by
  obtain ⟨m, rfl⟩ : ∃ m, n = m + 1 := ⟨n - 1, by omega⟩
  refine ⟨?_, ?_, ?_, ?_, List.take_append_drop _ _, List.length_drop _ _⟩
  · rw [handle_writable]; simp [hne]
  · rw [handle_writable]; simp [hne]
  · rw [handle_writable]; simp [hne]
  · rw [handle_writable]; simp [hne]

/-- Sample connection used to instantiate the write-flush theorem. -/
def cEx : Connection :=
  { read_buffer := [], write_buffer := [5, 6, 7], state := ConnState.WritingBody,
    keep_alive := false }

/-- Witness for c7_writable_cases at a three-byte buffer and a two-byte
write. -/
theorem c7_writable_cases_w :
    handle_writable cEx (WIOResult.wouldBlock :: []) = cEx
    ∧ handle_writable cEx (WIOResult.ok 0 :: []) = { cEx with state := ConnState.Closed }
    ∧ handle_writable cEx (WIOResult.errOther :: []) = { cEx with state := ConnState.Closed }
    ∧ (handle_writable cEx (WIOResult.ok 2 :: [])
        = handle_writable { cEx with write_buffer := cEx.write_buffer.drop 2 } []
      ∧ cEx.write_buffer.take 2 ++ cEx.write_buffer.drop 2 = cEx.write_buffer
      ∧ (cEx.write_buffer.drop 2).length = cEx.write_buffer.length - 2) :=
  c7_writable_cases cEx [] 2 (by decide) (by decide) (by decide)

/-- C1 counterexample: tokens issued by the Connection Table carry no
generation.  Insert a connection (stand-in value 7): it gets slot key 0
and token 1.  Remove it and insert another connection (stand-in value 9):
the freed slot is reused, the very same token value 1 is issued for it,
and looking the first connection's token up now yields the second
connection.  So applying a late JobResult addressed by the stale token
would mutate the reused slot rather than be a no-op, and nothing in the
token distinguishes the two connections. -/
theorem c1_counterexample :
    (slabInsert ([] : List (Option Nat)) 7).2 = 0
    ∧ tokenOfKey (slabInsert ([] : List (Option Nat)) 7).2 = 1
    ∧ (slabInsert (slabRemove (slabInsert ([] : List (Option Nat)) 7).1 0) 9).2 = 0
    ∧ lookupTok (slabInsert (slabRemove (slabInsert ([] : List (Option Nat)) 7).1 0) 9).1
        (tokenOfKey (slabInsert ([] : List (Option Nat)) 7).2) = some 9 := by
  decide

/-- C1 amended: over any table state, removing a freshly inserted
connection and inserting another reuses the very same slot key, and the
token issued for the first connection afterwards resolves to the second
one — the token is the bare slot index plus one, with no generation
component to invalidate it. -/
theorem c1_amended (t : List (Option Nat)) (a b : Nat) :
    (slabInsert (slabRemove (slabInsert t a).1 (slabInsert t a).2) b).2
        = (slabInsert t a).2
    ∧ lookupTok (slabInsert (slabRemove (slabInsert t a).1 (slabInsert t a).2) b).1
        (tokenOfKey (slabInsert t a).2) = some b := by
  induction t with
  | nil => simp [slabInsert, slabRemove, lookupTok, slabGet, tokenOfKey]
  | cons o t ih =>
      cases o with
      | none => simp [slabInsert, slabRemove, lookupTok, slabGet, tokenOfKey]
      | some c =>
          simp only [slabInsert, slabRemove, List.set_cons_succ, lookupTok, tokenOfKey,
            slabGet, Nat.add_sub_cancel, List.getElem?_cons_succ] at ih ⊢
          rcases ih with ⟨ih1, ih2⟩
          exact ⟨by rw [ih1], ih2⟩

theorem pool_foldl (js : List Nat) : ∀ (p : PoolState),
    (js.foldl execute p).pending = p.pending ++ js
    ∧ (js.foldl execute p).ranByCaller = p.ranByCaller := by
  induction js with
  | nil => intro p; simp
  | cons j js ih =>
      intro p
      simp only [List.foldl_cons]
      rcases ih (execute p j) with ⟨h1, h2⟩
      refine ⟨?_, by simpa [execute] using h2⟩
      rw [h1]
      simp [execute]

/-- C9 counterexample: the job queue of the worker pool is an unbounded
mpsc channel, so no capacity bounds the number of queued jobs — for every
proposed bound there is a burst of submissions that exceeds it while no
worker consumes. -/
theorem c9_counterexample :
    ¬ ∃ cap : Nat, ∀ js : List Nat,
        ((js.foldl execute pool4).pending.length ≤ cap) := by
  rintro ⟨cap, h⟩
  have h2 := h (List.range (cap + 1))
  rw [(pool_foldl (List.range (cap + 1)) pool4).1] at h2
  simp [pool4] at h2

/-- C9 amended: `ThreadPool::new(4)` builds a pool of four workers over an
unbounded empty channel, and `execute` always just appends the job to the
queue and returns — it never blocks the caller and never runs a job
synchronously on the calling thread, whatever the queue holds. -/
theorem c9_amended :
    ThreadPoolNew 4 = some pool4
    ∧ ∀ js : List Nat, (js.foldl execute pool4).pending = js
        ∧ (js.foldl execute pool4).ranByCaller = [] := by
  refine ⟨rfl, fun js => ?_⟩
  have h := pool_foldl js pool4
  simpa [pool4] using h

/-- Filesystem oracle on which every read fails. -/
def fsNone : List Char → Option (List Nat) := fun _ => none

/-- Mime oracle answering the octet-stream fallback for every path. -/
def mimeOct : List Char → MimeInfo :=
  fun _ => { isText := false, name := strL "application/octet-stream" }

/-- UTF-8 oracle that reports every byte list as invalid. -/
def u8No : List Nat → Bool := fun _ => false

/-- Existence oracle that reports every path as missing. -/
def exFalse : List Char → Bool := fun _ => false

/-- C8 counterexample: when the requested file read fails AND the 500
error page itself cannot be read, `create_http_response` does not produce
a response value at all — the `.unwrap()` on the fallback read panics
(modelled as `none`), a process-level failure rather than a converted
response value. -/
theorem c8_counterexample :
    create_http_response fsNone mimeOct u8No exFalse (strL "GET /x HTTP/1.1")
      = none := by
  rfl

/-- C8 amended: if the blocking file read for the resolved path fails
unexpectedly, the source logs the failure to stderr and — provided the 500
error page itself is readable — produces a response whose status is the
500 status line and whose body is the 500 page bytes; only when even the
fallback read fails does the handler panic instead of producing a
response. -/
theorem c8_amended_500 (fs : List Char → Option (List Nat))
    (mimeOf : List Char → MimeInfo) (utf8ok : List Nat → Bool)
    (ex : List Char → Bool) (line : List Char) (b : List Nat)
    (h500 : fs (strL "public/500.html") = some b)
    (hfail : fs (status_filename ex line).2 = none) :
    ∃ resp, create_http_response fs mimeOf utf8ok ex line = some resp
      ∧ resp.status = strL "HTTP/1.1 500 INTERNAL SERVER ERROR"
      ∧ bodyBytesOf resp.body = b := by
  simp only [create_http_response]
  rw [hfail]
  rw [show ErrorPage.path ErrorPage.InternalServerError = strL "public/500.html" from rfl,
    h500]
  refine ⟨_, rfl, rfl, ?_⟩
  unfold mkRespBody
  split_ifs <;> rfl

/-- Filesystem oracle on which only the 500 page is readable. -/
def fs500 : List Char → Option (List Nat) :=
  fun p => if p = strL "public/500.html" then some [72] else none

/-- Mime oracle answering text/html for every path. -/
def mimeHtml : List Char → MimeInfo :=
  fun _ => { isText := true, name := strL "text/html" }

/-- UTF-8 oracle that reports every byte list as valid. -/
def u8Yes : List Nat → Bool := fun _ => true

/-- Witness for c8_amended_500 at a request whose resolved file is
unreadable while the 500 page is readable. -/
theorem c8_amended_500_w :
    ∃ resp, create_http_response fs500 mimeHtml u8Yes exFalse (strL "GET /x HTTP/1.1")
        = some resp
      ∧ resp.status = strL "HTTP/1.1 500 INTERNAL SERVER ERROR"
      ∧ bodyBytesOf resp.body = [72] :=
  c8_amended_500 fs500 mimeHtml u8Yes exFalse (strL "GET /x HTTP/1.1") [72]
    (by decide) (by decide)

theorem mem_set_gen {β : Type} : ∀ (l : List β) (k : Nat) (v o : β),
    o ∈ l.set k v → o ∈ l ∨ o = v := by
  intro l
  induction l with
  | nil => intro k v o h; simp at h
  | cons a l ih =>
      intro k v o h
      cases k with
      | zero =>
          rw [List.set_cons_zero] at h
          rcases List.mem_cons.mp h with h | h
          · right; exact h
          · left; exact List.mem_cons_of_mem _ h
      | succ k =>
          rw [List.set_cons_succ] at h
          rcases List.mem_cons.mp h with h | h
          · left; rw [h]; exact List.mem_cons_self _ _
          · rcases ih k v o h with h2 | h2
            · left; exact List.mem_cons_of_mem _ h2
            · right; exact h2

theorem mem_setSlot {β : Type} (l : List (Option β)) (k : Nat) (v : β) (o : Option β)
    (h : o ∈ setSlot l k v) : o ∈ l ∨ o = some v := by
  unfold setSlot at h
  by_cases hk : k < l.length
  · rw [if_pos hk] at h
    exact mem_set_gen l k (some v) o h
  · rw [if_neg hk] at h
    rcases List.mem_append.mp h with h2 | h2
    · left; exact h2
    · right; simpa using h2

/-- The single-interest property: every interest registered for a
connection slot is exactly `Interest::READABLE` or exactly
`Interest::WRITABLE`. -/
def regInvariant (r : Reactor) : Prop :=
  ∀ o ∈ r.registry, ∀ i, o = some i → i = interestR ∨ i = interestW

theorem regInvariant_insertConn (r : Reactor) (h : regInvariant r) :
    regInvariant (insertConn r) := by
  intro o ho i hoi
  have hmem : o ∈ setSlot r.registry (slabInsert r.conns freshConn).2 interestR := by
    simpa [insertConn] using ho
  rcases mem_setSlot _ _ _ _ hmem with h2 | h2
  · exact h o h2 i hoi
  · left
    rw [h2] at hoi
    injection hoi with h3
    exact h3.symm

theorem regInvariant_accept : ∀ (s : List AcceptResult) (r : Reactor),
    regInvariant r → regInvariant (accept_ready r s) := by
  intro s
  induction s with
  | nil => intro r h; exact h
  | cons a s ih =>
      intro r h
      cases a with
      | ok => exact ih _ (regInvariant_insertConn r h)
      | wouldBlock => exact h
      | errOther => exact h

theorem hceWrite_registry (r : Reactor) (idx : Nat) (isW : Bool) (ws : List WIOResult) :
    (hceWrite r idx isW ws).registry = r.registry := by
  unfold hceWrite
  split
  · split <;> rfl
  · rfl

theorem hceRead_registry (r : Reactor) (idx : Nat) (isR : Bool) (rs : List RIOResult) :
    (hceRead r idx isR rs).registry = r.registry
    ∨ (hceRead r idx isR rs).registry = r.registry.set idx (some interestW) := by
  unfold hceRead
  by_cases hR : isR = true
  · simp only [hR, if_true]
    cases hg : slabGet r.conns idx with
    | none => left; rfl
    | some c =>
        by_cases hc : (handle_readable c rs).write_buffer ≠ []
        · right; simp [hc]
        · left; simp [hc]
  · simp [hR]

theorem regInvariant_hce (r : Reactor) (token : Nat) (isR isW : Bool)
    (rs : List RIOResult) (ws : List WIOResult) (h : regInvariant r) :
    regInvariant (handle_connection_event r token isR isW rs ws) := by
  intro o ho i hoi
  unfold handle_connection_event at ho
  rw [hceWrite_registry] at ho
  rcases hceRead_registry r (token - 1) isR rs with he | he
  · rw [he] at ho
    exact h o ho i hoi
  · rw [he] at ho
    rcases mem_set_gen _ _ _ _ ho with h2 | h2
    · exact h o h2 i hoi
    · right
      rw [h2] at hoi
      injection hoi with h3
      exact h3.symm

theorem regInvariant_step (r : Reactor) (e : EventIn) (h : regInvariant r) :
    regInvariant (step r e) := by
  unfold step
  by_cases ht : e.token = 0
  · rw [if_pos ht]
    exact regInvariant_accept _ _ h
  · rw [if_neg ht]
    exact regInvariant_hce _ _ _ _ _ _ h

theorem regInvariant_runR : ∀ (es : List EventIn) (r : Reactor),
    regInvariant r → regInvariant (runR r es) := by
  intro es
  induction es with
  | nil => intro r h; exact h
  | cons e es ih => intro r h; exact ih _ (regInvariant_step r e h)

/-- C5: in every reactor state reachable from startup by any finite
sequence of poll events and socket behaviours, every interest registered
for a connection is readable XOR writable — the reactor only ever
registers `Interest::READABLE` (on accept) or reregisters
`Interest::WRITABLE` (when a response is queued), never a combined
interest. -/
theorem c5_single_interest (es : List EventIn) (o : Option Interest) (i : Interest)
    (ho : o ∈ (runR initReactor es).registry) (hoi : o = some i) :
    i.readable ≠ i.writable := by
  have hinit : regInvariant initReactor := by
    intro o ho i hoi
    simp [initReactor] at ho
  rcases regInvariant_runR es initReactor hinit o ho i hoi with h | h
  · rw [h]; decide
  · rw [h]; decide

/-- Listener readiness event that accepts exactly one connection. -/
def evAccept : EventIn :=
  { token := 0, isR := true, isW := false,
    accepts := [AcceptResult.ok, AcceptResult.wouldBlock], reads := [], writes := [] }

/-- Witness for c5_single_interest right after one accepted connection. -/
theorem c5_single_interest_w :
    some interestR ∈ (runR initReactor [evAccept]).registry
    ∧ interestR.readable ≠ interestR.writable :=
  ⟨by decide, c5_single_interest [evAccept] (some interestR) interestR (by decide) rfl⟩

/-- Readable event delivering one byte and then would-block. -/
def evRead : EventIn :=
  { token := 1, isR := true, isW := false, accepts := [],
    reads := [RIOResult.ok (strBytes "X"), RIOResult.wouldBlock], writes := [] }

/-- Writable event whose single write drains the whole queued response. -/
def evDrain : EventIn :=
  { token := 1, isR := false, isW := true, accepts := [], reads := [],
    writes := [WIOResult.ok tempResponseBytes.length] }

/-- A later writable event for the same token, after the drain. -/
def evAgain : EventIn :=
  { token := 1, isR := false, isW := true, accepts := [], reads := [], writes := [] }

/-- C2 divergence: after a connection's write buffer fully drains it is
moved to the Closed state, but it is NOT deregistered from the poller and
NOT removed from the table — the deregister and remove are TODO comments
in the source.  The connection record is still in the slab and its token
still registered writable, and a later writable event for the same token
finds and handles the Closed connection again, so Closed is revisited
rather than being removed in the same step. -/
theorem c2_closed_not_removed :
    slabGet (runR initReactor [evAccept, evRead, evDrain]).conns 0
        = some { read_buffer := strBytes "X", write_buffer := [],
                 state := ConnState.Closed, keep_alive := false }
    ∧ (runR initReactor [evAccept, evRead, evDrain]).registry[0]?
        = some (some interestW)
    ∧ slabGet (runR initReactor [evAccept, evRead, evDrain, evAgain]).conns 0
        = some { read_buffer := strBytes "X", write_buffer := [],
                 state := ConnState.Closed, keep_alive := false }
    ∧ (runR initReactor [evAccept, evRead, evDrain, evAgain]).registry[0]?
        = some (some interestW) := by
  decide

/-- Readable event delivering one complete request line. -/
def evRequest : EventIn :=
  { token := 1, isR := true, isW := false, accepts := [],
    reads := [RIOResult.ok (strBytes "GET / HTTP/1.1\r\n"), RIOResult.wouldBlock],
    writes := [] }

/-- C3 divergence: when a complete request line arrives, the reactor does
not submit any Job to the worker pool and does not clear the readiness
interest.  Instead the TEMP TEST block fills the write buffer with the
hard-coded response synchronously on the reactor thread (ignoring the
request path), the connection stays in ReadingHeader rather than an
awaiting-work state, and its token is reregistered writable. -/
theorem c3_no_job_submitted :
    slabGet (runR initReactor [evAccept, evRequest]).conns 0
        = some { read_buffer := strBytes "GET / HTTP/1.1\r\n",
                 write_buffer := tempResponseBytes,
                 state := ConnState.ReadingHeader, keep_alive := false }
    ∧ (runR initReactor [evAccept, evRequest]).registry[0]? = some (some interestW)
    ∧ (runR initReactor [evAccept, evRequest]).submitted = [] := by
  decide
